import Mathlib

/-
Shallow embedding of the Catania game engine (the rules/state-machine layer
of the source), translated from the richest source iteration.  JavaScript
`null` counters are modelled as `Option Nat`; reads of a possibly-null
counter use `getD`, matching the fact that the code only reads each counter
in phases where it is non-null.  Falsy returns (`undefined`) of the boolean
predicates are modelled as `false`.
-/

/-- Observer notification: `fire` folds the observer list exactly as
`handled = handled || observer.onEvent(...)` does.  Because JavaScript
`||` short-circuits, an observer is only invoked while `handled` is still
false.  Observers are modelled as state transformers returning a handled
flag. -/
def fireStep {σ : Type} (acc : σ × Bool) (ob : σ → σ × Bool) : σ × Bool :=
  if acc.2 then acc else ob acc.1

/-- `Element.fire`: fold the registered observers over the state. -/
def fire {σ : Type} (observers : List (σ → σ × Bool)) (s : σ) : σ × Bool :=
  observers.foldl fireStep (s, false)

/-- The behaviour the spec sentence describes (modelled from the words of the
spec, for comparison with `fire`): invoke every registered observer in
registration order regardless of earlier results, then OR the results. -/
def fireAllSpec {σ : Type} (observers : List (σ → σ × Bool)) (s : σ) : σ × Bool :=
  observers.foldl (fun acc ob => ((ob acc.1).1, acc.2 || (ob acc.1).2)) (s, false)

/-- A resource card.  In the source a card stores `selected: null` initially
and `toggle` flips it with `!selected`; `null` is falsy in every use
(filters and negation), so `selected` is modelled as a `Bool` starting
false. -/
structure Card where
  type : String
  selected : Bool
deriving DecidableEq, Repr

/-- Per-player state.  `cards` is the authoritative list of card objects
(`this.cards`); `stateCards` is the derived mirror `this.state.cards`, a
list of plain type strings maintained by `_updateCardState` through the
deep-merging `setState`. -/
structure PlayerState where
  id : Nat
  setupVillage : Option Nat
  cards : List Card
  stateCards : List String
  roads : Int
  villages : Int
  cities : Int
deriving DecidableEq, Repr

def mkPlayer (id : Nat) : PlayerState :=
  { id := id, setupVillage := none, cards := [], stateCards := [],
    roads := 15, villages := 5, cities := 4 }

/-- `setInnerState` merging a list into an existing list state: entries are
assigned element-wise by index (extending the target when the new list is
longer), and stale elements of the old list beyond the new length remain. -/
def listMergeInto (newList oldList : List String) : List String :=
  newList ++ oldList.drop newList.length

/-- `_updateCardState`: recompute the string mirror from the card objects and
merge it into `state.cards`. -/
def updateCardState (p : PlayerState) : PlayerState :=
  { p with stateCards := listMergeInto (p.cards.map Card.type) p.stateCards }

/-- `hasCards`: for each required type, the mirror `state.cards` must hold at
least that many matching strings. -/
def hasCards (p : PlayerState) (types : List (String × Nat)) : Bool :=
  types.all (fun tn => decide (tn.2 ≤ (p.stateCards.filter (fun c => c = tn.1)).length))

/-- One splice step of `useCards`: `state.cards` holds plain strings, so the
`findIndex((c) => c.type == type)` callback compares `undefined` with the
type string and always fails; `findIndex` returns -1 and `splice(-1, 1)`
removes the last element. -/
def spliceMissing (cards : List String) : List String := cards.dropLast

/-- `useCards`: splice the string mirror (always dropping the last element,
see `spliceMissing`), then `_updateCardState` rebuilds the mirror from the
untouched card objects. -/
def useCards (p : PlayerState) (types : List (String × Nat)) : PlayerState :=
  let mirror := types.foldl (fun m tn => spliceMissing^[tn.2] m) p.stateCards
  updateCardState { p with stateCards := mirror }

/-- `discardSelected`: drop every selected card object, then refresh the
mirror (the element-wise merge leaves stale entries beyond the new
length). -/
def discardSelected (p : PlayerState) : PlayerState :=
  updateCardState { p with cards := p.cards.filter (fun c => ¬ c.selected) }

/-- Static board topology: for each vertex the adjacent hexes, for each edge
its two endpoint vertices, for each hex its terrain type and production
value (`none` models the empty-string value of desert and filler cells). -/
structure Board where
  vertexHexes : List (List Nat)
  edgeVerts : List (Nat × Nat)
  hexType : List String
  hexValue : List (Option Nat)
deriving DecidableEq, Repr

/-- `vertex.edges`: the edges register themselves with their endpoints in
construction order. -/
def vertexEdges (b : Board) (v : Nat) : List Nat :=
  (List.range b.edgeVerts.length).filter (fun e =>
    (b.edgeVerts.getD e (0, 0)).1 = v ∨ (b.edgeVerts.getD e (0, 0)).2 = v)

/-- `vertex.siblings`: for each incident edge, the endpoints different from
the vertex itself. -/
def siblings (b : Board) (v : Nat) : List Nat :=
  (vertexEdges b v).flatMap (fun e =>
    [(b.edgeVerts.getD e (0, 0)).1, (b.edgeVerts.getD e (0, 0)).2].filter (fun w => w ≠ v))

/-- `hex.vertexes`: the vertices register themselves with their hexes in
construction order. -/
def hexVerts (b : Board) (h : Nat) : List Nat :=
  (List.range b.vertexHexes.length).filter (fun v => h ∈ b.vertexHexes.getD v [])

inductive Step where
  | setup_village
  | setup_road
  | robber_discard
  | robber_place
  | turn
deriving DecidableEq, Repr

inductive Act where
  | setup_village
  | setup_road
  | next_turn
  | roll_dice
  | robber_discard
  | robber_select
  | robber_place
deriving DecidableEq, Repr

/-- The mutable game state: per-entity owner and selection flags, robber
flags, the player list and the state blob of the `Game` element. -/
structure GState where
  vertexOwner : List (Option Nat)
  vertexSelected : List Bool
  edgeOwner : List (Option Nat)
  edgeSelected : List Bool
  hexRobber : List Bool
  players : List PlayerState
  step : Step
  action : Act
  playersNumber : Nat
  firstPlayer : Nat
  currentPlayerMirror : Nat
  setupTurn : Option Nat
  turn : Option Nat
  robberTurn : Option Nat
deriving DecidableEq, Repr

/-- `SETUP_PLAYER_TURNS`, the snake-draft offset table keyed by player
count. -/
def setupPlayerTurns : Nat → List Nat
  | 2 => [0, 1, 1, 0]
  | 3 => [0, 1, 2, 2, 1, 0]
  | 4 => [0, 1, 2, 3, 3, 2, 1, 0]
  | 5 => [0, 1, 2, 3, 4, 4, 3, 2, 1, 0]
  | 6 => [0, 1, 2, 3, 4, 5, 5, 4, 3, 2, 1, 0]
  | _ => []

/-- The `currentPlayer` getter, as an index into the player list:
`players[(player - 1) % players.length]`. -/
def currentPlayerIdx (g : GState) : Nat :=
  let n := g.players.length
  let player : Nat :=
    match g.step with
    | Step.setup_village | Step.setup_road =>
        g.firstPlayer + (setupPlayerTurns n).getD (g.setupTurn.getD 0) 0
    | Step.robber_discard => g.firstPlayer + g.robberTurn.getD 0
    | _ => g.turn.getD 0 + g.firstPlayer
  (player - 1) % n

/-- The current player object. -/
def cp (g : GState) : PlayerState :=
  g.players.getD (currentPlayerIdx g) (mkPlayer 0)

/-- The id of the current player. -/
def cpId (g : GState) : Nat := (cp g).id

/-- `canBuildRoad`, phase-dependent: the phases without a switch case return
`undefined`, modelled as `false`. -/
def canBuildRoad (b : Board) (g : GState) (e : Nat) : Bool :=
  match g.step with
  | Step.setup_village => false
  | Step.setup_road =>
      [(b.edgeVerts.getD e (0, 0)).1, (b.edgeVerts.getD e (0, 0)).2].any
        (fun v => decide (some v = (cp g).setupVillage))
  | Step.turn =>
      let p := cp g
      decide (0 < p.roads) && hasCards p [("wood", 1), ("brick", 1)] &&
        [(b.edgeVerts.getD e (0, 0)).1, (b.edgeVerts.getD e (0, 0)).2].any
          (fun v =>
            decide (g.vertexOwner.getD v none = some p.id) ||
              (decide (g.vertexOwner.getD v none = none) &&
                (vertexEdges b v).any (fun e2 => decide (g.edgeOwner.getD e2 none = some p.id))))
  | _ => false

/-- `canBuildVillage`, phase-dependent; the early `return;` on a spent
village supply is `undefined`, modelled as `false`. -/
def canBuildVillage (b : Board) (g : GState) (v : Nat) : Bool :=
  match g.step with
  | Step.setup_village =>
      (siblings b v).all (fun s => decide (g.vertexOwner.getD s none = none))
  | Step.setup_road => false
  | Step.turn =>
      let p := cp g
      decide (0 < p.villages) &&
        hasCards p [("wood", 1), ("brick", 1), ("sheep", 1), ("wheat", 1)] &&
        (siblings b v).all (fun s => decide (g.vertexOwner.getD s none = none)) &&
        (vertexEdges b v).any (fun e => decide (g.edgeOwner.getD e none = some p.id))
  | _ => false

/-- `unselectAll` followed by the two `selectBuildable` loops; the selection
flags are never read by the legality predicates, so computing them from the
cleared state matches the sequential source. -/
def selectBuildable (b : Board) (g : GState) : GState :=
  let g1 := { g with
    edgeSelected := List.replicate b.edgeVerts.length false,
    vertexSelected := List.replicate b.vertexHexes.length false }
  { g1 with
    edgeSelected := (List.range b.edgeVerts.length).map (fun e => canBuildRoad b g1 e),
    vertexSelected := (List.range b.vertexHexes.length).map (fun v => canBuildVillage b g1 v) }

/-- Point update of a list, as JavaScript assignment through an index that is
in range (out-of-range indices leave the list unchanged; they never occur in
the modelled runs). -/
def listModify {α : Type} (f : α → α) : Nat → List α → List α
  | _, [] => []
  | 0, a :: as => f a :: as
  | n + 1, a :: as => a :: listModify f n as

/-- Mutate one player in place. -/
def modifyPlayerAt (g : GState) (i : Nat) (f : PlayerState → PlayerState) : GState :=
  { g with players := listModify f i g.players }

/-- `onCardToggled`: while the action is `robber_select` or `robber_discard`,
recompute whether exactly half (rounded down) of the card objects held by
the current player are selected and set the action label accordingly. -/
def onCardToggled (g : GState) : GState :=
  if g.action = Act.robber_select ∨ g.action = Act.robber_discard then
    let cards := (cp g).cards
    if (cards.filter (fun c => c.selected)).length = cards.length / 2 then
      { g with action := Act.robber_discard }
    else
      { g with action := Act.robber_select }
  else g

/-- `drawCard` as seen by the game: push the new card object, fire
`drawcard` (whose handler in `Game.onEvent` falls through into the
`toggle` case and runs `onCardToggled`), then `_updateCardState`. -/
def gameDrawCard (g : GState) (i : Nat) (t : String) : GState :=
  let g1 := modifyPlayerAt g i (fun p => { p with cards := p.cards ++ [Card.mk t false] })
  let g2 := onCardToggled g1
  modifyPlayerAt g2 i updateCardState

/-- The `setState` performed when every player has discarded. -/
def robberPlaceSet (g : GState) : GState :=
  { g with step := Step.robber_place, action := Act.robber_place, robberTurn := none }

/-- The `setState` putting the current player into card selection. -/
def robberSelectSet (g : GState) : GState :=
  { g with action := Act.robber_select }

/-- The tail of `nextTurn` (and of `handleRobber`): recompute the buildable
highlights and republish the denormalized current-player id. -/
def finishTurn (b : Board) (g : GState) : GState :=
  let g2 := selectBuildable b g
  { g2 with currentPlayerMirror := cpId g2 }

/-- `nextTurn`, with explicit fuel for the mutual recursion
`nextTurn → nextRobberTurn → checkRobberCards → nextTurn` of the source
(the robber-discard chain advances the robber turn at every recursion, so
`playersNumber + 1` units of fuel always suffice on reachable states).
The `robber_discard` case inlines `nextRobberTurn` and `checkRobberCards`;
the stand-alone wrappers below restate them. -/
def nextTurnF (b : Board) : Nat → GState → GState
  | 0, g => g
  | fuel + 1, g =>
    match g.step with
    | Step.setup_village =>
        finishTurn b { g with step := Step.setup_road, action := Act.setup_road }
    | Step.setup_road =>
        finishTurn b
          (if g.setupTurn.getD 0 + 1 = (setupPlayerTurns g.players.length).length then
            { g with step := Step.turn, setupTurn := none, turn := some 0,
                     action := Act.roll_dice }
          else
            { g with step := Step.setup_village, action := Act.setup_village,
                     setupTurn := some (g.setupTurn.getD 0 + 1) })
    | Step.robber_discard =>
        if g.robberTurn.getD 0 + 1 = g.playersNumber then
          finishTurn b (robberPlaceSet g)
        else
          if (cp { g with robberTurn := some (g.robberTurn.getD 0 + 1) }).stateCards.length < 8 then
            finishTurn b (nextTurnF b fuel { g with robberTurn := some (g.robberTurn.getD 0 + 1) })
          else
            finishTurn b (robberSelectSet { g with robberTurn := some (g.robberTurn.getD 0 + 1) })
    | Step.robber_place =>
        finishTurn b { g with step := Step.turn, action := Act.roll_dice }
    | Step.turn =>
        finishTurn b { g with turn := some (g.turn.getD 0 + 1), action := Act.roll_dice }

/-- `nextTurn` with the always-sufficient fuel. -/
def nextTurn (b : Board) (g : GState) : GState :=
  nextTurnF b (g.playersNumber + 1) g

/-- `checkRobberCards`: the hand size consulted is the length of the
`state.cards` string mirror. -/
def checkRobberCards (b : Board) (fuel : Nat) (g : GState) : GState :=
  if (cp g).stateCards.length < 8 then nextTurnF b fuel g else robberSelectSet g

/-- `nextRobberTurn`: advance the robber-turn counter; once it equals the
player count move to robber placement, otherwise store it and examine the
next player. -/
def nextRobberTurn (b : Board) (fuel : Nat) (g : GState) : GState :=
  if g.robberTurn.getD 0 + 1 = g.playersNumber then robberPlaceSet g
  else checkRobberCards b fuel { g with robberTurn := some (g.robberTurn.getD 0 + 1) }

/-- The three `setState`/highlight steps of `handleRobber`, before the
discard evaluation. -/
def handleRobberPre (b : Board) (g : GState) : GState :=
  finishTurn b { g with step := Step.robber_discard, action := Act.robber_discard,
                        robberTurn := some 0 }

/-- `handleRobber`: enter the robber-discard phase and evaluate whether the
current player must discard. -/
def handleRobber (b : Board) (g : GState) : GState :=
  checkRobberCards b (g.playersNumber + 1) (handleRobberPre b g)

/-- The resource-distribution loop of `throwDice`: every hex whose value
matches the roll hands one card of its type to the owner of each adjacent
owned vertex. -/
def distribute (b : Board) (g : GState) (diceValue : Nat) : GState :=
  (List.range b.hexType.length).foldl
    (fun g h =>
      if b.hexValue.getD h none = some diceValue then
        (hexVerts b h).foldl
          (fun g vx =>
            match g.vertexOwner.getD vx none with
            | some pid => gameDrawCard g (pid - 1) (b.hexType.getD h "")
            | none => g)
          g
      else g)
    g

/-- `throwDice` with the two die results as inputs: a sum of seven starts the
robber sequence and returns early, any other sum distributes resources and
arms the next-turn action. -/
def throwDice (b : Board) (g : GState) (d1 d2 : Nat) : GState :=
  if d1 + d2 = 7 then handleRobber b g
  else { distribute b g (d1 + d2) with action := Act.next_turn }

/-- `buildVillage`: assign ownership, decrement the village supply, and
outside the setup phase consume the village cost and recompute
highlights. -/
def buildVillage (b : Board) (g : GState) (v : Nat) : GState :=
  let i := currentPlayerIdx g
  let pid := (cp g).id
  let g1 := { g with vertexOwner := g.vertexOwner.set v (some pid) }
  let g2 := modifyPlayerAt g1 i (fun p => { p with villages := p.villages - 1 })
  if g2.step ≠ Step.setup_village then
    selectBuildable b
      (modifyPlayerAt g2 i
        (fun p => useCards p [("wood", 1), ("brick", 1), ("wheat", 1), ("sheep", 1)]))
  else g2

/-- `buildRoad`: assign ownership, decrement the road supply, and outside the
setup phase consume the road cost and recompute highlights. -/
def buildRoad (b : Board) (g : GState) (e : Nat) : GState :=
  let i := currentPlayerIdx g
  let pid := (cp g).id
  let g1 := { g with edgeOwner := g.edgeOwner.set e (some pid) }
  let g2 := modifyPlayerAt g1 i (fun p => { p with roads := p.roads - 1 })
  if g2.step ≠ Step.setup_road then
    selectBuildable b
      (modifyPlayerAt g2 i (fun p => useCards p [("wood", 1), ("brick", 1)]))
  else g2

/-- `onBuildVillage`: build, and during the setup phase remember the placed
node, hand out one card per adjacent hex on the second setup pass, and
auto-advance. -/
def onBuildVillage (b : Board) (g : GState) (v : Nat) : GState :=
  let g1 := buildVillage b g v
  if g1.step = Step.setup_village then
    let i := currentPlayerIdx g1
    let g2 := modifyPlayerAt g1 i (fun p => { p with setupVillage := some v })
    let g3 :=
      if g2.players.length ≤ g2.setupTurn.getD 0 then
        (b.vertexHexes.getD v []).foldl (fun g h => gameDrawCard g i (b.hexType.getD h "")) g2
      else g2
    nextTurn b g3
  else g1

/-- `onBuildRoad`: build, and during the setup phase clear the remembered
setup node and auto-advance. -/
def onBuildRoad (b : Board) (g : GState) (e : Nat) : GState :=
  let g1 := buildRoad b g e
  if g1.step = Step.setup_road then
    nextTurn b (modifyPlayerAt g1 (currentPlayerIdx g1) (fun p => { p with setupVillage := none }))
  else g1

/-- `onHexClick`: only meaningful while placing the robber, and refused on
the hex currently holding it; otherwise move the robber flag and advance. -/
def onHexClick (b : Board) (g : GState) (h : Nat) : GState :=
  if g.step = Step.robber_place then
    if g.hexRobber.getD h false then g
    else nextTurn b { g with hexRobber := (g.hexRobber.map (fun _ => false)).set h true }
  else g

/-- `robberDiscard`: drop the selected cards of the current player and
advance the robber turn. -/
def robberDiscard (b : Board) (g : GState) : GState :=
  nextTurn b (modifyPlayerAt g (currentPlayerIdx g) discardSelected)

/-- `doAction`: dispatch of the primary control on the current action value;
the dice results feed the `roll_dice` branch. -/
def doAction (b : Board) (g : GState) (d1 d2 : Nat) : GState :=
  match g.action with
  | Act.next_turn => nextTurn b g
  | Act.roll_dice => throwDice b g d1 d2
  | Act.robber_discard => robberDiscard b g
  | _ => g

/-- The click targets the `instanceof` chain of `Game.onClick`
distinguishes. -/
inductive ClickTarget where
  | vertex (i : Nat)
  | edge (i : Nat)
  | hex (i : Nat)
  | button (d1 d2 : Nat)
deriving DecidableEq, Repr

/-- `Game.onClick`: builds happen only when currently legal; a hex click is
always reported handled; the button path returns `undefined`, modelled as
an unhandled `false`. -/
def onClick (b : Board) (g : GState) (t : ClickTarget) : GState × Bool :=
  match t with
  | ClickTarget.vertex i =>
      if canBuildVillage b g i then (onBuildVillage b g i, true) else (g, false)
  | ClickTarget.edge i =>
      if canBuildRoad b g i then (onBuildRoad b g i, true) else (g, false)
  | ClickTarget.hex i => (onHexClick b g i, true)
  | ClickTarget.button d1 d2 => (doAction b g d1 d2, false)

/-- `Card.toggle` reaching the game through the `toggle` event: flip the
selection flag of card `c` of player `p` (`selectable` is never cleared in
the source), then rerun the action-label computation. -/
def toggleCard (g : GState) (p c : Nat) : GState :=
  onCardToggled
    (modifyPlayerAt g p
      (fun pl => { pl with
        cards := listModify (fun card => { card with selected := ¬ card.selected }) c pl.cards }))

/-- The external inputs a running game receives. -/
inductive Op where
  | click (t : ClickTarget)
  | toggle (p c : Nat)
deriving DecidableEq, Repr

def applyOp (b : Board) (g : GState) : Op → GState
  | Op.click t => (onClick b g t).1
  | Op.toggle p c => toggleCard g p c

/-- Dice results are 1..6. -/
def opOK : Op → Prop
  | Op.click (ClickTarget.button d1 d2) => 1 ≤ d1 ∧ d1 ≤ 6 ∧ 1 ≤ d2 ∧ d2 ≤ 6
  | _ => True

/-- The `Game` constructor: players 1..n, desert hexes get the robber, the
state blob starts in `setup_village` with setup turn 0, and buildable
highlights are computed once. -/
def mkGame (b : Board) (n : Nat) (fp : Nat) : GState :=
  selectBuildable b
    { vertexOwner := List.replicate b.vertexHexes.length none,
      vertexSelected := List.replicate b.vertexHexes.length false,
      edgeOwner := List.replicate b.edgeVerts.length none,
      edgeSelected := List.replicate b.edgeVerts.length false,
      hexRobber := b.hexType.map (fun t => t = "desert"),
      players := (List.range n).map (fun i => mkPlayer (i + 1)),
      step := Step.setup_village, action := Act.setup_village,
      playersNumber := n, firstPlayer := fp, currentPlayerMirror := fp,
      setupTurn := some 0, turn := none, robberTurn := none }

/-- States reachable from a given start by click-dispatched operations with
legal dice values. -/
inductive Reachable (b : Board) (g0 : GState) : GState → Prop
  | refl : Reachable b g0 g0
  | step : ∀ {g : GState} (op : Op), Reachable b g0 g → opOK op → Reachable b g0 (applyOp b g op)

/-- A minimal two-vertex test board: one desert hex, vertices 0 and 1 on it,
one edge joining them. -/
def b0 : Board :=
  { vertexHexes := [[0], [0]], edgeVerts := [(0, 1)],
    hexType := ["desert"], hexValue := [none] }

/-- A player holding the given resource types as unselected cards with a
consistent mirror. -/
def pWith (id : Nat) (cards : List String) : PlayerState :=
  { id := id, setupVillage := none, cards := cards.map (fun t => Card.mk t false),
    stateCards := cards, roads := 15, villages := 5, cities := 4 }

/-- A mid-game turn-phase state on `b0`: player 1 owns vertex 0 and holds one
wood and one brick; it is the turn of player 1. -/
def gC3 : GState :=
  { vertexOwner := [some 1, none], vertexSelected := [false, false],
    edgeOwner := [none], edgeSelected := [false],
    hexRobber := [true],
    players := [pWith 1 ["wood", "brick"], pWith 2 []],
    step := Step.turn, action := Act.next_turn,
    playersNumber := 2, firstPlayer := 1, currentPlayerMirror := 1,
    setupTurn := none, turn := some 0, robberTurn := none }

/-- A turn-phase state on `b0` where player 1 holds exactly the village cost
and owns the road joining the two vertices. -/
def gC6 : GState :=
  { vertexOwner := [none, none], vertexSelected := [false, false],
    edgeOwner := [some 1], edgeSelected := [false],
    hexRobber := [true],
    players := [pWith 1 ["wood", "brick", "wheat", "sheep"], pWith 2 []],
    step := Step.turn, action := Act.next_turn,
    playersNumber := 2, firstPlayer := 1, currentPlayerMirror := 1,
    setupTurn := none, turn := some 0, robberTurn := none }

/-- `gC3` about to roll the dice. -/
def gC5 : GState := { gC3 with action := Act.roll_dice }

/-- `gC3` at the start of a robber-discard round. -/
def gC7 : GState :=
  { gC3 with step := Step.robber_discard, action := Act.robber_discard, robberTurn := some 0 }

/-- A fresh two-player game on `b0` in its second setup pass. -/
def gC10 : GState := { mkGame b0 2 1 with setupTurn := some 2 }

/-- The demonstration observer list for `fire`: the first observer reports
the event handled without touching the state, the second increments the
state and reports it unhandled. -/
def c4obs : List (Nat → Nat × Bool) :=
  [fun s => (s, true), fun s => (s + 1, false)]

/-- A two-hex variant of the test board: the desert holds the robber at the
start and a second hex gives the robber somewhere to move to. -/
def bC7 : Board :=
  { vertexHexes := [[0], [0]], edgeVerts := [(0, 1)],
    hexType := ["desert", "wood"], hexValue := [none, some 9] }

/-- A mid-game turn state on `bC7` about to roll the dice: player 1 holds
eight cards (as after eight draws, so the mirror agrees with the hand),
player 2 holds none. -/
def gC7raw : GState :=
  { vertexOwner := [none, none], vertexSelected := [false, false],
    edgeOwner := [none], edgeSelected := [false],
    hexRobber := [true, false],
    players := [pWith 1 ["wood", "wood", "wood", "wood", "sheep", "sheep", "sheep", "sheep"],
      pWith 2 []],
    step := Step.turn, action := Act.roll_dice,
    playersNumber := 2, firstPlayer := 1, currentPlayerMirror := 1,
    setupTurn := none, turn := some 0, robberTurn := none }

/-- A click-dispatched robber round followed by a second seven: roll a 7,
select four of the eight cards, confirm the discard, place the robber on
the other hex, then roll a second 7. -/
def c7ops : List Op :=
  [Op.click (ClickTarget.button 3 4),
   Op.toggle 0 0, Op.toggle 0 1, Op.toggle 0 2, Op.toggle 0 3,
   Op.click (ClickTarget.button 3 4),
   Op.click (ClickTarget.hex 1),
   Op.click (ClickTarget.button 2 5)]

theorem listModify_length {α : Type} (f : α → α) :
    ∀ (i : Nat) (l : List α), (listModify f i l).length = l.length := by
  intro i l
  induction l generalizing i with
  | nil => cases i <;> rfl
  | cons a as ih => cases i with
    | zero => rfl
    | succ n => simpa [listModify] using ih n

theorem map_listModify {α β : Type} (h : α → β) (f : α → α) (hf : ∀ a, h (f a) = h a) :
    ∀ (i : Nat) (l : List α), (listModify f i l).map h = l.map h := by
  intro i l
  induction l generalizing i with
  | nil => cases i <;> rfl
  | cons a as ih => cases i with
    | zero => simp [listModify, hf]
    | succ n => simpa [listModify] using ih n

theorem listModify_getD_self {α : Type} (f : α → α) (d : α) :
    ∀ (i : Nat) (l : List α), i < l.length → (listModify f i l).getD i d = f (l.getD i d) := by
  intro i l
  induction l generalizing i with
  | nil => intro h; simp at h
  | cons a as ih => cases i with
    | zero => intro _; rfl
    | succ n =>
        intro h
        simpa [listModify] using ih n (by simpa using h)

theorem listModify_getD_ne {α : Type} (f : α → α) (d : α) :
    ∀ (i j : Nat) (l : List α), i ≠ j → (listModify f i l).getD j d = l.getD j d := by
  intro i j l
  induction l generalizing i j with
  | nil => intro _; cases i <;> rfl
  | cons a as ih =>
      intro hij
      cases i with
      | zero => cases j with
        | zero => exact absurd rfl hij
        | succ m => rfl
      | succ n => cases j with
        | zero => rfl
        | succ m => simpa [listModify] using ih n m (fun h => hij (by rw [h]))

theorem getD_map {α β : Type} (h : α → β) (d : α) :
    ∀ (l : List α) (i : Nat), (l.map h).getD i (h d) = h (l.getD i d) := by
  intro l
  induction l with
  | nil => intro i; rfl
  | cons a as ih => intro i; cases i with
    | zero => rfl
    | succ n => exact ih n

/-- Preservation of a projection across a fold. -/
theorem foldl_pres {α β : Type} (proj : GState → β) (f : GState → α → GState)
    (hf : ∀ g x, proj (f g x) = proj g) :
    ∀ (l : List α) (g : GState), proj (l.foldl f g) = proj g := by
  intro l
  induction l with
  | nil => intro g; rfl
  | cons a as ih => intro g; rw [List.foldl_cons, ih, hf]

theorem selectBuildable_players (b : Board) (g : GState) :
    (selectBuildable b g).players = g.players := rfl

theorem finishTurn_players (b : Board) (g : GState) :
    (finishTurn b g).players = g.players := rfl

theorem finishTurn_step (b : Board) (g : GState) : (finishTurn b g).step = g.step := rfl

theorem finishTurn_action (b : Board) (g : GState) : (finishTurn b g).action = g.action := rfl

theorem finishTurn_robberTurn (b : Board) (g : GState) :
    (finishTurn b g).robberTurn = g.robberTurn := rfl

theorem finishTurn_playersNumber (b : Board) (g : GState) :
    (finishTurn b g).playersNumber = g.playersNumber := rfl

theorem onCardToggled_players (g : GState) : (onCardToggled g).players = g.players := by
  unfold onCardToggled
  split
  · dsimp only
    split <;> rfl
  · rfl

theorem onCardToggled_step (g : GState) : (onCardToggled g).step = g.step := by
  unfold onCardToggled
  split
  · dsimp only
    split <;> rfl
  · rfl

theorem nextTurnF_players (b : Board) :
    ∀ (fuel : Nat) (g : GState), (nextTurnF b fuel g).players = g.players := by
  intro fuel
  induction fuel with
  | zero => intro g; rfl
  | succ f ih =>
      intro g
      cases hstep : g.step
      case setup_village => simp only [nextTurnF, hstep]; rfl
      case setup_road =>
        simp only [nextTurnF, hstep]
        split <;> rfl
      case robber_discard =>
        simp only [nextTurnF, hstep]
        split
        · rfl
        · split
          · rw [finishTurn_players, ih]
          · rfl
      case robber_place => simp only [nextTurnF, hstep]; rfl
      case turn => simp only [nextTurnF, hstep]; rfl

theorem nextTurn_players (b : Board) (g : GState) : (nextTurn b g).players = g.players :=
  nextTurnF_players b (g.playersNumber + 1) g

theorem checkRobberCards_players (b : Board) (fuel : Nat) (g : GState) :
    (checkRobberCards b fuel g).players = g.players := by
  unfold checkRobberCards
  split
  · exact nextTurnF_players b fuel g
  · rfl

theorem handleRobberPre_players (b : Board) (g : GState) :
    (handleRobberPre b g).players = g.players := rfl

theorem handleRobber_players (b : Board) (g : GState) :
    (handleRobber b g).players = g.players := by
  unfold handleRobber
  rw [checkRobberCards_players, handleRobberPre_players]

theorem modifyPlayerAt_step (g : GState) (i : Nat) (f : PlayerState → PlayerState) :
    (modifyPlayerAt g i f).step = g.step := rfl

theorem gameDrawCard_step (g : GState) (i : Nat) (t : String) :
    (gameDrawCard g i t).step = g.step := by
  unfold gameDrawCard
  rw [modifyPlayerAt_step, onCardToggled_step, modifyPlayerAt_step]

theorem distribute_step (b : Board) (g : GState) (v : Nat) :
    (distribute b g v).step = g.step := by
  unfold distribute
  apply foldl_pres (fun g => g.step)
  intro g h
  split
  · apply foldl_pres (fun g => g.step)
    intro g vx
    cases g.vertexOwner.getD vx none
    · rfl
    · exact gameDrawCard_step g _ _
  · rfl

/-- The list of player ids, the projection preserved by every operation. -/
def idsOf (g : GState) : List Nat := g.players.map PlayerState.id

theorem idsOf_modifyPlayerAt (g : GState) (i : Nat) (f : PlayerState → PlayerState)
    (hf : ∀ p, (f p).id = p.id) : idsOf (modifyPlayerAt g i f) = idsOf g :=
  map_listModify PlayerState.id f hf i g.players

theorem idsOf_selectBuildable (b : Board) (g : GState) :
    idsOf (selectBuildable b g) = idsOf g := by
  unfold idsOf
  rw [selectBuildable_players]

theorem idsOf_onCardToggled (g : GState) : idsOf (onCardToggled g) = idsOf g := by
  unfold idsOf
  rw [onCardToggled_players]

theorem idsOf_gameDrawCard (g : GState) (i : Nat) (t : String) :
    idsOf (gameDrawCard g i t) = idsOf g := by
  unfold gameDrawCard
  dsimp only
  rw [idsOf_modifyPlayerAt _ _ updateCardState (fun p => rfl), idsOf_onCardToggled,
    idsOf_modifyPlayerAt _ _
      (fun p => { p with cards := p.cards ++ [Card.mk t false] }) (fun p => rfl)]

theorem idsOf_distribute (b : Board) (g : GState) (v : Nat) :
    idsOf (distribute b g v) = idsOf g := by
  unfold distribute
  apply foldl_pres idsOf
  intro g h
  split
  · apply foldl_pres idsOf
    intro g vx
    cases g.vertexOwner.getD vx none
    · rfl
    · exact idsOf_gameDrawCard g _ _
  · rfl

theorem idsOf_buildVillage (b : Board) (g : GState) (v : Nat) :
    idsOf (buildVillage b g v) = idsOf g := by
  unfold buildVillage
  dsimp only
  split
  · rw [idsOf_selectBuildable,
      idsOf_modifyPlayerAt _ _
        (fun p => useCards p [("wood", 1), ("brick", 1), ("wheat", 1), ("sheep", 1)])
        (fun p => rfl),
      idsOf_modifyPlayerAt _ _ (fun p => { p with villages := p.villages - 1 }) (fun p => rfl)]
    rfl
  · rw [idsOf_modifyPlayerAt _ _ (fun p => { p with villages := p.villages - 1 }) (fun p => rfl)]
    rfl

theorem idsOf_buildRoad (b : Board) (g : GState) (e : Nat) :
    idsOf (buildRoad b g e) = idsOf g := by
  unfold buildRoad
  dsimp only
  split
  · rw [idsOf_selectBuildable,
      idsOf_modifyPlayerAt _ _ (fun p => useCards p [("wood", 1), ("brick", 1)]) (fun p => rfl),
      idsOf_modifyPlayerAt _ _ (fun p => { p with roads := p.roads - 1 }) (fun p => rfl)]
    rfl
  · rw [idsOf_modifyPlayerAt _ _ (fun p => { p with roads := p.roads - 1 }) (fun p => rfl)]
    rfl

theorem idsOf_nextTurn (b : Board) (g : GState) : idsOf (nextTurn b g) = idsOf g := by
  unfold idsOf
  rw [nextTurn_players]

theorem idsOf_onBuildVillage (b : Board) (g : GState) (v : Nat) :
    idsOf (onBuildVillage b g v) = idsOf g := by
  unfold onBuildVillage
  dsimp only
  split
  · rw [idsOf_nextTurn]
    split
    · rw [foldl_pres idsOf _ (fun g h => idsOf_gameDrawCard g _ _),
        idsOf_modifyPlayerAt _ _ (fun p => { p with setupVillage := some v }) (fun p => rfl)]
      exact idsOf_buildVillage b g v
    · rw [idsOf_modifyPlayerAt _ _ (fun p => { p with setupVillage := some v }) (fun p => rfl)]
      exact idsOf_buildVillage b g v
  · exact idsOf_buildVillage b g v

theorem idsOf_onBuildRoad (b : Board) (g : GState) (e : Nat) :
    idsOf (onBuildRoad b g e) = idsOf g := by
  unfold onBuildRoad
  dsimp only
  split
  · rw [idsOf_nextTurn,
      idsOf_modifyPlayerAt _ _ (fun p => { p with setupVillage := none }) (fun p => rfl)]
    exact idsOf_buildRoad b g e
  · exact idsOf_buildRoad b g e

theorem idsOf_onHexClick (b : Board) (g : GState) (h : Nat) :
    idsOf (onHexClick b g h) = idsOf g := by
  unfold onHexClick
  split
  · split
    · rfl
    · rw [idsOf_nextTurn]
      rfl
  · rfl

theorem idsOf_throwDice (b : Board) (g : GState) (d1 d2 : Nat) :
    idsOf (throwDice b g d1 d2) = idsOf g := by
  unfold throwDice
  split
  · unfold idsOf
    rw [handleRobber_players]
  · exact idsOf_distribute b g (d1 + d2)

theorem idsOf_robberDiscard (b : Board) (g : GState) :
    idsOf (robberDiscard b g) = idsOf g := by
  unfold robberDiscard
  rw [idsOf_nextTurn]
  exact idsOf_modifyPlayerAt _ _ discardSelected (fun p => rfl)

theorem idsOf_doAction (b : Board) (g : GState) (d1 d2 : Nat) :
    idsOf (doAction b g d1 d2) = idsOf g := by
  unfold doAction
  cases g.action
  case next_turn => exact idsOf_nextTurn b g
  case roll_dice => exact idsOf_throwDice b g d1 d2
  case robber_discard => exact idsOf_robberDiscard b g
  all_goals rfl

theorem idsOf_toggleCard (g : GState) (p c : Nat) :
    idsOf (toggleCard g p c) = idsOf g := by
  unfold toggleCard
  rw [idsOf_onCardToggled]
  exact idsOf_modifyPlayerAt _ _ _ (fun pl => rfl)

theorem idsOf_applyOp (b : Board) (g : GState) (op : Op) :
    idsOf (applyOp b g op) = idsOf g := by
  cases op with
  | click t =>
      cases t with
      | vertex i =>
          show idsOf (if canBuildVillage b g i then (onBuildVillage b g i, true) else (g, false)).1
              = idsOf g
          split
          · exact idsOf_onBuildVillage b g i
          · rfl
      | edge i =>
          show idsOf (if canBuildRoad b g i then (onBuildRoad b g i, true) else (g, false)).1
              = idsOf g
          split
          · exact idsOf_onBuildRoad b g i
          · rfl
      | hex i => exact idsOf_onHexClick b g i
      | button d1 d2 => exact idsOf_doAction b g d1 d2
  | toggle p c => exact idsOf_toggleCard g p c

theorem reachable_idsOf (b : Board) (n fp : Nat) (g : GState)
    (h : Reachable b (mkGame b n fp) g) :
    idsOf g = (List.range n).map (fun i => i + 1) := by
  induction h with
  | refl =>
      show idsOf (mkGame b n fp) = _
      unfold mkGame idsOf
      rw [selectBuildable_players]
      show ((List.range n).map (fun i => mkPlayer (i + 1))).map PlayerState.id = _
      rw [List.map_map]
      rfl
  | step op hr hok ih =>
      rw [idsOf_applyOp]
      exact ih

theorem rangeMap_getD (n i : Nat) (h : i < n) :
    ((List.range n).map (fun j => j + 1)).getD i 0 = i + 1 := by
  rw [List.getD_eq_getElem?_getD, List.getElem?_map, List.getElem?_range h]
  rfl

/-- C1: `currentPlayer` is the pure function of phase and counters given by
`currentPlayerIdx`/`cpId` (setup phases add the snake-draft table entry to
the first player, robber discard adds the robber-turn counter, regular
turns add the turn counter, all wrapped modulo the player count); on every
reachable state its result is a player id in 1..N, and for every player
count in 2..6 the setup offset table has length twice the player count and
lists each player index exactly twice. -/
theorem c1_currentPlayer_range (b : Board) (n fp : Nat) (g : GState)
    (hn : n ∈ [2, 3, 4, 5, 6]) (_hfp1 : 1 ≤ fp) (_hfpn : fp ≤ n)
    (hreach : Reachable b (mkGame b n fp) g) :
    ((setupPlayerTurns n).length = 2 * n ∧
      ∀ k, k < n → ((setupPlayerTurns n).filter (fun x => x = k)).length = 2) ∧
    1 ≤ cpId g ∧ cpId g ≤ n := by
  have hids := reachable_idsOf b n fp g hreach
  have hlen : g.players.length = n := by
    have hl := congrArg List.length hids
    simpa [idsOf] using hl
  have hn0 : 0 < n := by
    have h5 : n = 2 ∨ n = 3 ∨ n = 4 ∨ n = 5 ∨ n = 6 := by simpa using hn
    rcases h5 with h | h | h | h | h <;> subst h <;> decide
  have hidx : currentPlayerIdx g < n := by
    unfold currentPlayerIdx
    dsimp only
    rw [hlen]
    exact Nat.mod_lt _ hn0
  have hcp : cpId g = currentPlayerIdx g + 1 := by
    unfold cpId cp
    have h1 := getD_map PlayerState.id (mkPlayer 0) g.players (currentPlayerIdx g)
    rw [← h1]
    show (idsOf g).getD (currentPlayerIdx g) 0 = _
    rw [hids]
    exact rangeMap_getD n _ hidx
  refine ⟨?_, ?_, ?_⟩
  · have h5 : n = 2 ∨ n = 3 ∨ n = 4 ∨ n = 5 ∨ n = 6 := by simpa using hn
    rcases h5 with h | h | h | h | h <;> subst h <;> exact ⟨by decide, by decide⟩
  · rw [hcp]
    exact Nat.succ_le_succ (Nat.zero_le _)
  · rw [hcp]
    exact hidx

theorem c1_witness :
    ((setupPlayerTurns 2).length = 2 * 2 ∧
      ∀ k, k < 2 → ((setupPlayerTurns 2).filter (fun x => x = k)).length = 2) ∧
    1 ≤ cpId (mkGame b0 2 1) ∧ cpId (mkGame b0 2 1) ≤ 2 :=
  c1_currentPlayer_range b0 2 1 (mkGame b0 2 1) (by decide) (by decide) (by decide)
    Reachable.refl

theorem fire_stuck {σ : Type} : ∀ (hs : List (σ → σ × Bool)) (t : σ),
    List.foldl fireStep (t, true) hs = (t, true) := by
  intro hs
  induction hs with
  | nil => intro t; rfl
  | cons h rest ih =>
      intro t
      rw [List.foldl_cons]
      show List.foldl fireStep (fireStep (t, true) h) rest = _
      rw [show fireStep (t, true) h = (t, true) from rfl]
      exact ih t

/-- C4 (amended): `fire` invokes the registered observers in registration
order only until one reports the event handled; once an observer returns
true the remaining observers are not invoked (the assignment
`handled = handled || observer.onEvent(...)` short-circuits), and the
returned flag is true iff one of the invoked observers reported the event
handled — which, for observers without side effects, equals the OR of all
the handler results. -/
theorem c4_fire_amended :
    (∀ (σ : Type) (h : σ → σ × Bool) (hs : List (σ → σ × Bool)) (s : σ),
        fire (h :: hs) s = if (h s).2 then ((h s).1, true) else fire hs (h s).1) ∧
    (∀ (σ : Type) (s : σ), fire ([] : List (σ → σ × Bool)) s = (s, false)) ∧
    (∀ (bs : List Bool) (s : Nat),
        (fire (bs.map (fun b => fun t => (t, b))) s).2 = bs.any (fun x => x)) := by
  have key : ∀ (σ : Type) (h : σ → σ × Bool) (hs : List (σ → σ × Bool)) (s : σ),
      fire (h :: hs) s = if (h s).2 then ((h s).1, true) else fire hs (h s).1 := by
    intro σ h hs s
    show List.foldl fireStep (fireStep (s, false) h) hs = _
    rw [show fireStep (s, false) h = h s from rfl]
    rcases hp : h s with ⟨s', b⟩
    cases b
    · rfl
    · exact fire_stuck hs s'
  refine ⟨key, fun σ s => rfl, ?_⟩
  intro bs
  induction bs with
  | nil => intro s; rfl
  | cons b rest ih =>
      intro s
      rw [List.map_cons, key]
      cases b
      · simpa using ih s
      · simp

/-- C4 (counterexample): with a first observer that reports the event
handled and a second observer that increments the state, `fire` disagrees
with the every-observer-is-invoked behaviour the claim describes — the
second observer never runs. -/
theorem c4_fire_counterexample : fire c4obs 0 ≠ fireAllSpec c4obs 0 := by decide

/-- C2: a concrete reachable trace in which an owner reference is
overwritten.  In a fresh 2-player game, player 1 places a setup village on
vertex 0 and a road on the edge; on the next setup turn the village check
only inspects the siblings of vertex 0 (never vertex 0 itself), so player 2
may click the same vertex and its owner flips from 1 to 2. -/
theorem c2_owner_overwritten :
    canBuildVillage b0 (mkGame b0 2 1) 0 = true ∧
    ((onClick b0 (mkGame b0 2 1) (ClickTarget.vertex 0)).1.vertexOwner.getD 0 none = some 1) ∧
    canBuildVillage b0
      ((onClick b0 ((onClick b0 (mkGame b0 2 1) (ClickTarget.vertex 0)).1)
        (ClickTarget.edge 0)).1) 0 = true ∧
    ((onClick b0
        ((onClick b0 ((onClick b0 (mkGame b0 2 1) (ClickTarget.vertex 0)).1)
          (ClickTarget.edge 0)).1)
        (ClickTarget.vertex 0)).1.vertexOwner.getD 0 none = some 2) := by decide

/-- C3: after a legal turn-phase road build the same connector still
satisfies `canBuildRoad` — the predicate never consults the owner of the
connector itself, and the endpoint owned by the builder (or the just-built
road) satisfies the adjacency test. -/
theorem c3_canBuildRoad_after_build :
    canBuildRoad b0 gC3 0 = true ∧
    (onClick b0 gC3 (ClickTarget.edge 0)).1.edgeOwner.getD 0 none = some 1 ∧
    canBuildRoad b0 (onClick b0 gC3 (ClickTarget.edge 0)).1 0 = true := by decide

/-- C6: a legal village build outside setup leaves the card list of the builder
(and its mirror) completely unchanged, because `useCards` splices the
string mirror with an always-failing `findIndex` and then rebuilds the
mirror from the untouched card objects; only the village counter
decreases. -/
theorem c6_village_cost_not_deducted :
    canBuildVillage b0 gC6 0 = true ∧
    ((onClick b0 gC6 (ClickTarget.vertex 0)).1.players.getD 0 (mkPlayer 0)).cards =
      (gC6.players.getD 0 (mkPlayer 0)).cards ∧
    ((onClick b0 gC6 (ClickTarget.vertex 0)).1.players.getD 0 (mkPlayer 0)).stateCards =
      ["wood", "brick", "wheat", "sheep"] ∧
    ((onClick b0 gC6 (ClickTarget.vertex 0)).1.players.getD 0 (mkPlayer 0)).villages = 4 ∧
    (onClick b0 gC6 (ClickTarget.vertex 0)).1.vertexOwner.getD 0 none = some 1 := by decide

/-- C9 (counterexample): a hex click outside the `robber_place` phase leaves
the state unchanged but the dispatch returns handled (`true`), not
unhandled as the claim states — `onClick` returns `true` for every hex
target. -/
theorem c9_hex_click_counterexample :
    (onClick b0 gC3 (ClickTarget.hex 0)).1 = gC3 ∧
    (onClick b0 gC3 (ClickTarget.hex 0)).2 = true := by decide

/-- C9 (amended): an illegal node or connector click leaves the state
unchanged and returns unhandled; a cell click changes state only during
`robber_place`, and an illegal cell click (wrong phase, or the cell
already holding the robber) leaves the state unchanged but is reported
handled. -/
theorem c9_click_amended (b : Board) (g : GState) (i : Nat) :
    (canBuildVillage b g i = false → onClick b g (ClickTarget.vertex i) = (g, false)) ∧
    (canBuildRoad b g i = false → onClick b g (ClickTarget.edge i) = (g, false)) ∧
    (g.step ≠ Step.robber_place → onClick b g (ClickTarget.hex i) = (g, true)) ∧
    (g.step = Step.robber_place → g.hexRobber.getD i false = true →
      onClick b g (ClickTarget.hex i) = (g, true)) := by
  refine ⟨?_, ?_, ?_, ?_⟩
  · intro h
    show (if canBuildVillage b g i then (onBuildVillage b g i, true) else (g, false)) = _
    rw [h]
    rfl
  · intro h
    show (if canBuildRoad b g i then (onBuildRoad b g i, true) else (g, false)) = _
    rw [h]
    rfl
  · intro h
    show (onHexClick b g i, true) = _
    unfold onHexClick
    rw [if_neg h]
  · intro h1 h2
    show (onHexClick b g i, true) = _
    unfold onHexClick
    rw [if_pos h1, if_pos h2]

theorem c9_witness : onClick b0 gC3 (ClickTarget.vertex 1) = (gC3, false) :=
  (c9_click_amended b0 gC3 1).1 (by decide)

/-- C8: for every node that has at least one sibling node with a non-null
owner, `canBuildVillage` on that node returns false, in every phase: the
setup and turn phases test every sibling, and the remaining phases fall
through the switch to an undefined (falsy) result. -/
theorem c8_sibling_blocks_village (b : Board) (g : GState) (v s : Nat)
    (hs : s ∈ siblings b v) (ho : g.vertexOwner.getD s none ≠ none) :
    canBuildVillage b g v = false := by
  have hall : (siblings b v).all (fun t => decide (g.vertexOwner.getD t none = none)) = false := by
    rw [Bool.eq_false_iff]
    intro hallT
    have hmem := List.all_eq_true.mp hallT s hs
    simp only [decide_eq_true_eq] at hmem
    exact ho hmem
  cases hstep : g.step
  case setup_village =>
    simp only [canBuildVillage, hstep]
    exact hall
  case setup_road => simp only [canBuildVillage, hstep]
  case robber_discard => simp only [canBuildVillage, hstep]
  case robber_place => simp only [canBuildVillage, hstep]
  case turn =>
    simp only [canBuildVillage, hstep]
    rw [hall]
    simp

theorem c8_witness : canBuildVillage b0 gC3 1 = false :=
  c8_sibling_blocks_village b0 gC3 1 0 (by decide) (by decide)

/-- C5: in a turn state armed with `roll_dice`, a dice sum of seven makes
`throwDice` return early into the robber sequence: the phase is set to
`robber_discard` before anything else happens, no player draws any resource
card from that roll, and for any other sum the phase is left unchanged by
the distribution loop. -/
theorem c5_roll_seven (b : Board) (g : GState) (d1 d2 : Nat)
    (_hstep : g.step = Step.turn) (_hact : g.action = Act.roll_dice) (h7 : d1 + d2 = 7) :
    throwDice b g d1 d2 = handleRobber b g ∧
    (handleRobberPre b g).step = Step.robber_discard ∧
    (throwDice b g d1 d2).players.map (fun p => p.cards) = g.players.map (fun p => p.cards) ∧
    (∀ e1 e2, e1 + e2 ≠ 7 → (throwDice b g e1 e2).step = g.step) := by
  have h1 : throwDice b g d1 d2 = handleRobber b g := by
    unfold throwDice
    rw [if_pos h7]
  refine ⟨h1, rfl, ?_, ?_⟩
  · rw [h1, handleRobber_players]
  · intro e1 e2 hne
    unfold throwDice
    rw [if_neg hne]
    show (distribute b g (e1 + e2)).step = g.step
    exact distribute_step b g (e1 + e2)

theorem c5_witness :
    (throwDice b0 gC5 3 4).players.map (fun p => p.cards) =
      gC5.players.map (fun p => p.cards) :=
  (c5_roll_seven b0 gC5 3 4 rfl rfl rfl).2.2.1

theorem nextTurnF_robber (b : Board) (fuel : Nat) (g : GState)
    (hstep : g.step = Step.robber_discard) :
    nextTurnF b (fuel + 1) g = finishTurn b (nextRobberTurn b fuel g) := by
  rcases g with ⟨vo, vs, eo, es, hr, pl, st, ac, pn, fp, cm, sT, tn, rT⟩
  dsimp only at hstep
  subst hstep
  simp only [nextTurnF]
  unfold nextRobberTurn checkRobberCards
  dsimp only
  split_ifs <;> rfl

theorem robber_cascade (b : Board) :
    ∀ (fuel : Nat) (g : GState) (k : Nat),
      g.step = Step.robber_discard → g.robberTurn = some k → k < g.playersNumber →
      g.playersNumber - k ≤ fuel →
      ((nextTurnF b fuel g).step = Step.robber_place ∧
        (nextTurnF b fuel g).robberTurn = none) ∨
      ((nextTurnF b fuel g).step = Step.robber_discard ∧
        (nextTurnF b fuel g).action = Act.robber_select ∧
        ∃ k', (nextTurnF b fuel g).robberTurn = some k' ∧ k < k' ∧ k' < g.playersNumber) := by
  intro fuel
  induction fuel with
  | zero => intro g k _ _ h3 h4; omega
  | succ f ih =>
      intro g k h1 h2 h3 h4
      rw [nextTurnF_robber b f g h1]
      unfold nextRobberTurn
      rw [h2]
      simp only [Option.getD_some]
      by_cases hk : k + 1 = g.playersNumber
      · rw [if_pos hk]
        left
        exact ⟨rfl, rfl⟩
      · rw [if_neg hk]
        unfold checkRobberCards
        by_cases hsz : (cp { g with robberTurn := some (k + 1) }).stateCards.length < 8
        · rw [if_pos hsz]
          have hres := ih { g with robberTurn := some (k + 1) } (k + 1) h1 rfl
            (show k + 1 < g.playersNumber by omega)
            (show g.playersNumber - (k + 1) ≤ f by omega)
          rcases hres with ⟨ha, hb⟩ | ⟨ha, hb, k', hc, hd, he⟩
          · left
            exact ⟨by rw [finishTurn_step]; exact ha, by rw [finishTurn_robberTurn]; exact hb⟩
          · right
            exact ⟨by rw [finishTurn_step]; exact ha, by rw [finishTurn_action]; exact hb,
              k', by rw [finishTurn_robberTurn]; exact hc, by omega, he⟩
        · rw [if_neg hsz]
          right
          exact ⟨by rw [finishTurn_step]; exact h1, rfl, k + 1, rfl, by omega, by omega⟩

/-- C7: the auto-advance criterion of the robber sequence is broken.  The
claim says a player with fewer than 8 cards is auto-advanced, but
`checkRobberCards` consults `state.cards.length`, the string mirror that
the element-wise `setState` merge never truncates, so it goes stale after
a discard.  In this click-dispatched trace on `bC7`, player 1 draws no
cards after discarding four of eight, yet on the second rolled seven the
code puts the player — now holding only four cards — into the
`robber_select` sub-state with the robber-turn counter still at 0 instead
of auto-advancing: the real hand has length 4 while the stale mirror still
reports 8.  (The first robber round of the same trace completes normally
through `robber_place`.) -/
theorem c7_stale_hand_forces_select :
    ((List.foldl (applyOp bC7) gC7raw (c7ops.take 6)).step = Step.robber_place ∧
      ((List.foldl (applyOp bC7) gC7raw (c7ops.take 6)).players.getD 0
          (mkPlayer 0)).cards.length = 4) ∧
    (List.foldl (applyOp bC7) gC7raw (c7ops.take 7)).step = Step.turn ∧
    (List.foldl (applyOp bC7) gC7raw c7ops).step = Step.robber_discard ∧
    (List.foldl (applyOp bC7) gC7raw c7ops).action = Act.robber_select ∧
    (List.foldl (applyOp bC7) gC7raw c7ops).robberTurn = some 0 ∧
    (cp (List.foldl (applyOp bC7) gC7raw c7ops)).cards.length = 4 ∧
    (cp (List.foldl (applyOp bC7) gC7raw c7ops)).stateCards.length = 8 := by decide

theorem modifyPlayerAt_players_length (g : GState) (i : Nat) (f : PlayerState → PlayerState) :
    (modifyPlayerAt g i f).players.length = g.players.length :=
  listModify_length f i g.players

theorem modifyPlayerAt_getD_self (g : GState) (i : Nat) (f : PlayerState → PlayerState)
    (hi : i < g.players.length) :
    (modifyPlayerAt g i f).players.getD i (mkPlayer 0) = f (g.players.getD i (mkPlayer 0)) :=
  listModify_getD_self f (mkPlayer 0) i g.players hi

theorem updateCardState_cards (p : PlayerState) : (updateCardState p).cards = p.cards := rfl

theorem gameDrawCard_length (g : GState) (i : Nat) (t : String) :
    (gameDrawCard g i t).players.length = g.players.length := by
  unfold gameDrawCard
  dsimp only
  rw [modifyPlayerAt_players_length, onCardToggled_players, modifyPlayerAt_players_length]

theorem gameDrawCard_cards_self (g : GState) (i : Nat) (t : String)
    (hi : i < g.players.length) :
    ((gameDrawCard g i t).players.getD i (mkPlayer 0)).cards =
      (g.players.getD i (mkPlayer 0)).cards ++ [Card.mk t false] := by
  unfold gameDrawCard
  dsimp only
  rw [modifyPlayerAt_getD_self _ _ _
    (by rw [onCardToggled_players, modifyPlayerAt_players_length]; exact hi)]
  rw [updateCardState_cards, onCardToggled_players,
    modifyPlayerAt_getD_self _ _ _ hi]

theorem drawFold_cards (b : Board) (i : Nat) :
    ∀ (hl : List Nat) (g : GState), i < g.players.length →
      ((hl.foldl (fun g h => gameDrawCard g i (b.hexType.getD h "")) g).players.getD i
          (mkPlayer 0)).cards =
        (g.players.getD i (mkPlayer 0)).cards ++
          hl.map (fun h => Card.mk (b.hexType.getD h "") false) := by
  intro hl
  induction hl with
  | nil => intro g hi; simp
  | cons h rest ih =>
      intro g hi
      rw [List.foldl_cons, ih _ (by rw [gameDrawCard_length]; exact hi),
        gameDrawCard_cards_self g i _ hi, List.map_cons, List.append_assoc]
      rfl

theorem drawFold_length (b : Board) (i : Nat) :
    ∀ (hl : List Nat) (g : GState),
      (hl.foldl (fun g h => gameDrawCard g i (b.hexType.getD h "")) g).players.length =
        g.players.length := by
  intro hl
  induction hl with
  | nil => intro g; rfl
  | cons h rest ih =>
      intro g
      rw [List.foldl_cons, ih, gameDrawCard_length]

theorem currentPlayerIdx_congr (g1 g2 : GState) (hstep : g1.step = g2.step)
    (hlen : g1.players.length = g2.players.length) (hfp : g1.firstPlayer = g2.firstPlayer)
    (hsT : g1.setupTurn = g2.setupTurn) (hrT : g1.robberTurn = g2.robberTurn)
    (htn : g1.turn = g2.turn) : currentPlayerIdx g1 = currentPlayerIdx g2 := by
  unfold currentPlayerIdx
  dsimp only
  rw [hlen, hfp, hsT, hrT, htn, hstep]

theorem buildVillage_setup (b : Board) (g : GState) (v : Nat)
    (hstep : g.step = Step.setup_village) :
    buildVillage b g v =
      modifyPlayerAt { g with vertexOwner := g.vertexOwner.set v (some (cp g).id) }
        (currentPlayerIdx g) (fun p => { p with villages := p.villages - 1 }) := by
  unfold buildVillage
  dsimp only
  rw [if_neg (fun hne => hne hstep)]

/-- C10: a village placed during the setup phase hands the placing player
one card per cell adjacent to the placed node exactly when the setup-turn
counter is at least the player count (the second, descending snake-draft
pass); first-pass villages grant nothing, and the drawn cards take the
terrain types of the adjacent cells unfiltered, desert and edge cells
included. -/
theorem c10_setup_draws (b : Board) (g : GState) (v : Nat)
    (hstep : g.step = Step.setup_village) (hcan : canBuildVillage b g v = true)
    (hlen : 0 < g.players.length) :
    ((onClick b g (ClickTarget.vertex v)).1.players.getD (currentPlayerIdx g)
        (mkPlayer 0)).cards =
      (g.players.getD (currentPlayerIdx g) (mkPlayer 0)).cards ++
        (if g.players.length ≤ g.setupTurn.getD 0 then
          (b.vertexHexes.getD v []).map (fun h => Card.mk (b.hexType.getD h "") false)
        else []) := by
  have hob : (onClick b g (ClickTarget.vertex v)).1 = onBuildVillage b g v := by
    show (if canBuildVillage b g v then (onBuildVillage b g v, true) else (g, false)).1 = _
    rw [if_pos hcan]
  rw [hob]
  unfold onBuildVillage
  dsimp only
  rw [buildVillage_setup b g v hstep]
  set G1 := modifyPlayerAt { g with vertexOwner := g.vertexOwner.set v (some (cp g).id) }
    (currentPlayerIdx g) (fun p => { p with villages := p.villages - 1 }) with hG1
  have hG1step : G1.step = Step.setup_village := hstep
  rw [if_pos hG1step]
  have hG1len : G1.players.length = g.players.length :=
    modifyPlayerAt_players_length _ _ _
  have hidx : currentPlayerIdx G1 = currentPlayerIdx g :=
    currentPlayerIdx_congr G1 g rfl hG1len rfl rfl rfl rfl
  rw [hidx]
  set G2 := modifyPlayerAt G1 (currentPlayerIdx g) (fun p => { p with setupVillage := some v })
    with hG2
  have hG2len : G2.players.length = g.players.length := by
    rw [hG2, modifyPlayerAt_players_length, hG1len]
  have hi : currentPlayerIdx g < g.players.length := by
    unfold currentPlayerIdx
    dsimp only
    exact Nat.mod_lt _ hlen
  have hcards : (G2.players.getD (currentPlayerIdx g) (mkPlayer 0)).cards =
      (g.players.getD (currentPlayerIdx g) (mkPlayer 0)).cards := by
    rw [hG2, modifyPlayerAt_getD_self _ _ _ (by rw [hG1len]; exact hi)]
    show (G1.players.getD (currentPlayerIdx g) (mkPlayer 0)).cards = _
    rw [hG1, modifyPlayerAt_getD_self
      { g with vertexOwner := g.vertexOwner.set v (some (cp g).id) }
      (currentPlayerIdx g) _ hi]
  rw [show G2.players.length = g.players.length from hG2len,
    show G2.setupTurn = g.setupTurn from rfl]
  by_cases hdraw : g.players.length ≤ g.setupTurn.getD 0
  · rw [if_pos hdraw, if_pos hdraw, nextTurn_players,
      drawFold_cards b (currentPlayerIdx g) _ G2 (by rw [hG2len]; exact hi), hcards]
  · rw [if_neg hdraw, if_neg hdraw, nextTurn_players, hcards, List.append_nil]

theorem c10_witness :
    ((onClick b0 gC10 (ClickTarget.vertex 0)).1.players.getD 1 (mkPlayer 0)).cards =
      [Card.mk "desert" false] := by
  have h := c10_setup_draws b0 gC10 0 rfl (by decide) (by decide)
  simpa using h
